import Mathlib

/-!
# `MetalProgramImpl` (taichi/runtime/program_impls/metal/metal_program.cpp)

A shallow embedding of the Metal program implementation: the two file-local
helpers `find_all_dense_snodes` and `all_fields_are_dense`, and every member
function of `MetalProgramImpl`, as functions on an explicit session state.

Conventions of the embedding.

* An `SNode *` is an address (`Ptr`); the objects live in a `Heap`, a total map
  from addresses to `SNode` records, so `sn->type` is `(H sn).type`.
  A null `parent` is `none`.
* `std::unique_ptr<T>` and `std::optional<T>` members are `Option T`.
* `std::unordered_set<const SNode *>` is a `Finset Ptr`; the descriptor map
  `std::unordered_map<int, SNodeDescriptor>` is a list of key/value pairs.
* A member function returns an `Outcome`: its result (a value, or the error it
  raised), the session afterwards, and the calls it made into code outside this
  file, in order (`Event`).
* Calls into code outside this file take their results from an `Env`, and
  return. The one exception is the constructor of `metal::KernelManager` in
  `materialize_runtime`, which may also raise: it runs after the runtime
  module has been stored, so a raise there leaves a session that no returning
  call leaves. A raise from any other outside call leaves the members as some
  modelled outcome already leaves them.
* `TI_ASSERT` and `TI_ERROR_IF` raise; the three undefined behaviours the file
  can run into (`->` on an empty `unique_ptr`, `value()` on an empty
  `optional`, `operator[]` past the end) are reported as errors of their own.
-/

namespace taichi.lang

/-! ## Data model -/

/-- Address of an `SNode` object. -/
abbrev Ptr := Nat

/-- Kinds of an `SNode`. The enumeration is declared outside this file; the
code here tests for `root`, `dense` and `place`, the other constructors stand
for the remaining kinds. -/
inductive SNodeType
  | root
  | dense
  | dynamic
  | pointer
  | bitmasked
  | hash
  | place
  deriving DecidableEq, Repr

/-- The fields of `SNode` this file reads: `type`, `ch` and `parent`. -/
structure SNode where
  type : SNodeType
  ch : List Ptr
  parent : Option Ptr
  deriving DecidableEq, Repr

/-- The memory holding the `SNode` objects. -/
abbrev Heap := Ptr → SNode

/-- An `SNodeTree`: `tree->root()` is `tree.root`. -/
structure SNodeTree where
  id : Int
  root : Ptr
  deriving DecidableEq, Repr

/-- A node belongs to the tree under `root` when it is reached from `root`
through `ch`. -/
inductive InTree (H : Heap) (root : Ptr) : Ptr → Prop
  | root : InTree H root root
  | child {p c : Ptr} : InTree H root p → c ∈ (H p).ch → InTree H root c

/-- The shape every declared tree has: the root node is of kind `root`, has no
parent and is the only node of that kind; every child points back to its
parent; a `place` node has no children. -/
structure WellFormed (H : Heap) (root : Ptr) : Prop where
  root_type : (H root).type = SNodeType.root
  root_parent : (H root).parent = none
  child_parent : ∀ p c, InTree H root p → c ∈ (H p).ch → (H c).parent = some p
  only_root : ∀ p, InTree H root p → (H p).type = SNodeType.root → p = root
  place_leaf : ∀ p, InTree H root p → (H p).type = SNodeType.place → (H p).ch = []

/-- A value of `metal::CompiledStructs::SNodeDescriptor`: the node it describes
and its resolved layout numbers. -/
structure SNodeDescriptor where
  snode : Ptr
  stride : Nat
  mem_offset_in_parent : Nat
  deriving DecidableEq, Repr

/-- The map `metal::SNodeDescriptorsMap`, as its key/value pairs. -/
abbrev SNodeDescriptorsMap := List (Int × SNodeDescriptor)

/-- A value of `metal::CompiledStructs`, the result of compiling one tree. Only
`snode_descriptors` is read in this file; `root_size` stands for the rest. -/
structure CompiledStructs where
  snode_descriptors : SNodeDescriptorsMap
  root_size : Nat
  deriving DecidableEq, Repr

/-! ## The file-local helpers -/

/-- The source's `find_all_dense_snodes`: the nodes of kind `dense` among the
nodes the descriptors name. -/
def find_all_dense_snodes (H : Heap) (snodes_map : SNodeDescriptorsMap) : Finset Ptr :=
  snodes_map.foldl
    (fun res e => if (H e.2.snode).type = SNodeType.dense then insert e.2.snode res else res)
    ∅

/-- One round of the outer loop of `all_fields_are_dense`: `false` when the
round returns `false`, `true` when it falls through to the next node. -/
def all_fields_are_dense_round (H : Heap) (sn : Ptr) : Bool :=
  if (H sn).ch.any (fun ch => (H ch).type ≠ SNodeType.place) then false
  else
    match (H sn).parent with
    | none => false
    | some parent => if (H parent).type ≠ SNodeType.root then false else true

/-- The source's `all_fields_are_dense`: no round over the given set returns
`false`. The order in which an unordered set is walked is not fixed, and the
result does not depend on it. -/
def all_fields_are_dense (H : Heap) (placed_snodes : Finset Ptr) : Bool :=
  decide (∀ sn ∈ placed_snodes, all_fields_are_dense_round H sn = true)

/-! ## Session state and collaborators -/

/-- The fields of `CompileConfig` this file reads. The cleaning factor is a
floating-point number in the source; it is only passed on, never computed
with, and is kept as an uninterpreted token. -/
structure CompileConfig where
  use_llvm : Bool
  offline_cache : Bool
  offline_cache_file_path : String
  offline_cache_cleaning_policy : String
  offline_cache_max_size_of_files : Nat
  offline_cache_cleaning_factor : Nat
  deriving DecidableEq, Repr

/-- A value of `metal::CompiledRuntimeModule`, kept as an identifying token. -/
structure CompiledRuntimeModule where
  token : Nat
  deriving DecidableEq, Repr

/-- The `MemoryPool` a caller hands to `materialize_runtime`: the address of
the pool object and the `(size, alignment)` requests it has served. -/
structure MemoryPool where
  addr : Nat
  served : List (Nat × Nat)
  deriving DecidableEq, Repr

/-- The source's `metal::KernelManager::Params`. `mem_pool` and `profiler` are
the pointers the caller supplied, `host_result_buffer` the address of the
result buffer. -/
structure KernelManager.Params where
  compiled_runtime_module : CompiledRuntimeModule
  config : CompileConfig
  host_result_buffer : Nat
  mem_pool : Nat
  profiler : Nat
  deriving DecidableEq, Repr

/-- A `metal::KernelManager` object: the parameters it was constructed with
and the compiled trees registered with it through `add_compiled_snode_tree`. -/
structure KernelManager where
  params : KernelManager.Params
  compiled_snode_trees : List CompiledStructs
  deriving DecidableEq, Repr

/-- The two cache modes of `metal::CacheManager`. -/
inductive CacheMode
  | MemCache
  | MemAndDiskCache
  deriving DecidableEq, Repr

/-- A pointer to a member of the session, as stored by the cache manager. -/
inductive MemberRef
  | compiled_runtime_module_
  | compiled_snode_trees_
  deriving DecidableEq, Repr

/-- The source's `metal::CacheManager::Params`. -/
structure CacheManager.Params where
  mode : CacheMode
  cache_path : String
  compiled_runtime_module_ : MemberRef
  compiled_snode_trees_ : MemberRef
  deriving DecidableEq, Repr

/-- A `metal::CacheManager` object, identified by what it was constructed
with. -/
structure CacheManager where
  params : CacheManager.Params
  deriving DecidableEq, Repr

/-- The source's `Device::AllocParams` as filled in by
`allocate_memory_ndarray`. -/
structure AllocParams where
  size : Nat
  host_read : Bool
  host_write : Bool
  usage_storage : Bool
  export_sharing : Bool
  deriving DecidableEq, Repr

/-- The members of `MetalProgramImpl`. -/
structure Session where
  config : CompileConfig
  compiled_runtime_module_ : Option CompiledRuntimeModule
  compiled_snode_trees_ : List CompiledStructs
  metal_kernel_mgr_ : Option KernelManager
  cache_manager_ : Option CacheManager
  deriving DecidableEq, Repr

/-- The source's constructor `MetalProgramImpl(config_)`: every member empty. -/
def MetalProgramImpl (config_ : CompileConfig) : Session :=
  { config := config_
    compiled_runtime_module_ := none
    compiled_snode_trees_ := []
    metal_kernel_mgr_ := none
    cache_manager_ := none }

/-- The object `std::make_unique<metal::AotModuleBuilderImpl>` is given: the
runtime module, the compiled trees, the dense field set and the buffer meta
data. -/
structure AotModuleBuilderImpl where
  compiled_runtime_module : CompiledRuntimeModule
  compiled_snode_trees : List CompiledStructs
  fields : Finset Ptr
  buffer_meta_data : Nat
  deriving DecidableEq

/-- What a member function can raise. -/
inductive Error
  | assertion (msg : String)
  | ti_error (msg : String)
  | null_dereference
  | bad_optional_access
  | out_of_bounds
  deriving DecidableEq, Repr

/-- The calls this file makes into code outside it. -/
inductive Event
  | allocate (pool : Nat) (size alignment : Nat)
  | compile_runtime_module
  | make_kernel_manager (params : KernelManager.Params)
  | compile_structs (root : Ptr)
  | add_compiled_snode_tree (tree : CompiledStructs)
  | get_buffer_meta_data
  | make_aot_module_builder_impl
  | get_cache_path_by_arch (base : String)
  | make_cache_manager (params : CacheManager.Params)
  | load_or_compile (kernel : Nat)
  | compiled_kernel_to_metal_executable
  | get_snode_num_dynamically_allocated (snode : Ptr)
  | allocate_memory (params : AllocParams)
  | string_to_clean_cache_policy (name : String)
  | clean_offline_cache (policy max_size factor : Nat)
  | dump_with_merging
  deriving DecidableEq, Repr

/-- What the code outside this file returns. `taichi_result_buffer_entries` is
a constant declared in a header; the functions are the callees named in the
source. -/
structure Env where
  taichi_result_buffer_entries : Nat
  allocate : MemoryPool → Nat → Nat → Nat
  compile_runtime_module : CompiledRuntimeModule
  compile_structs : Heap → Ptr → CompiledStructs
  get_buffer_meta_data : KernelManager → Nat
  get_cache_path_by_arch : String → String
  load_or_compile : CacheManager → CompileConfig → Nat → Nat
  compiled_kernel_to_metal_executable : Nat → Option KernelManager → Nat
  get_snode_num_dynamically_allocated : KernelManager → Ptr → Nat
  allocate_memory : KernelManager → AllocParams → Nat
  string_to_clean_cache_policy : String → Nat

/-- Result of a member function: what it returned or raised, the session
afterwards, and the outside calls it made. -/
structure Outcome (α : Type) where
  result : Except Error α
  state : Session
  trace : List Event

/-- Result of `materialize_runtime`, which also writes through its arguments:
`memory_pool` is the pool afterwards and `result_buffer` the content of
`*result_buffer_ptr` afterwards. -/
structure MaterializeOutcome where
  result : Except Error Unit
  state : Session
  memory_pool : MemoryPool
  result_buffer : Nat
  trace : List Event

/-- The null pointer. -/
def nullptr : Nat := 0

/-- The source's `sizeof(uint64)`. -/
def sizeof_uint64 : Nat := 8

/-- The source's `memory_pool->allocate(size, alignment)`: the pool afterwards. -/
def MemoryPool.allocate (pool : MemoryPool) (size alignment : Nat) : MemoryPool :=
  { pool with served := pool.served ++ [(size, alignment)] }

/-- The source's `metal_kernel_mgr_->add_compiled_snode_tree(tree)`. -/
def KernelManager.add_compiled_snode_tree (mgr : KernelManager) (tree : CompiledStructs) :
    KernelManager :=
  { mgr with compiled_snode_trees := mgr.compiled_snode_trees ++ [tree] }

/-! ## Member functions of `MetalProgramImpl` -/

/-- The source's `MetalProgramImpl::get_cache_manager`: builds the cache manager
on first use, after asserting that the runtime module exists, and returns the
stored one. -/
def get_cache_manager (env : Env) (s : Session) : Outcome CacheManager :=
  match s.cache_manager_ with
  | some mgr => { result := .ok mgr, state := s, trace := [] }
  | none =>
    match s.compiled_runtime_module_ with
    | none =>
      { result := .error (.assertion "compiled_runtime_module_.has_value()")
        state := s, trace := [] }
    | some _ =>
      let params : CacheManager.Params :=
        { mode := if s.config.offline_cache then .MemAndDiskCache else .MemCache
          cache_path := env.get_cache_path_by_arch s.config.offline_cache_file_path
          compiled_runtime_module_ := .compiled_runtime_module_
          compiled_snode_trees_ := .compiled_snode_trees_ }
      let mgr : CacheManager := { params := params }
      { result := .ok mgr
        state := { s with cache_manager_ := some mgr }
        trace := [.get_cache_path_by_arch s.config.offline_cache_file_path,
                  .make_cache_manager params] }

/-- The source's `MetalProgramImpl::compile`. -/
def compile (env : Env) (s : Session) (kernel : Nat) : Outcome Nat :=
  let r := get_cache_manager env s
  match r.result with
  | .error e => { result := .error e, state := r.state, trace := r.trace }
  | .ok mgr =>
    let data := env.load_or_compile mgr r.state.config kernel
    { result := .ok (env.compiled_kernel_to_metal_executable data r.state.metal_kernel_mgr_)
      state := r.state
      trace := r.trace ++ [.load_or_compile kernel, .compiled_kernel_to_metal_executable] }

/-- The source's `MetalProgramImpl::get_snode_num_dynamically_allocated`. -/
def get_snode_num_dynamically_allocated (env : Env) (s : Session) (snode : Ptr) :
    Outcome Nat :=
  match s.metal_kernel_mgr_ with
  | none => { result := .error .null_dereference, state := s, trace := [] }
  | some mgr =>
    { result := .ok (env.get_snode_num_dynamically_allocated mgr snode)
      state := s
      trace := [.get_snode_num_dynamically_allocated snode] }

/-- The source's `MetalProgramImpl::materialize_runtime`; `result_buffer` is the
content of `*result_buffer_ptr` on entry, and `kernel_manager_raises` is what
the constructor of `metal::KernelManager` does in this call: `none` when it
returns, `some e` when it raises `e`. The runtime module is stored before the
constructor runs, so a constructor that raises leaves the module stored, the
slot written and no kernel manager. The size handed to the pool is a `size_t`
product. -/
def materialize_runtime_with (kernel_manager_raises : Option Error) (env : Env) (s : Session)
    (memory_pool : MemoryPool) (profiler : Nat) (result_buffer : Nat) : MaterializeOutcome :=
  if result_buffer ≠ nullptr then
    { result := .error (.assertion "*result_buffer_ptr == nullptr")
      state := s, memory_pool := memory_pool, result_buffer := result_buffer, trace := [] }
  else if s.metal_kernel_mgr_ ≠ none then
    { result := .error (.assertion "metal_kernel_mgr_ == nullptr")
      state := s, memory_pool := memory_pool, result_buffer := result_buffer, trace := [] }
  else
    let size := (sizeof_uint64 * env.taichi_result_buffer_entries) % 2 ^ 64
    let buffer := env.allocate memory_pool size 8
    let module := env.compile_runtime_module
    let params : KernelManager.Params :=
      { compiled_runtime_module := module
        config := s.config
        host_result_buffer := buffer
        mem_pool := memory_pool.addr
        profiler := profiler }
    match kernel_manager_raises with
    | some e =>
      { result := .error e
        state := { s with compiled_runtime_module_ := some module }
        memory_pool := memory_pool.allocate size 8
        result_buffer := buffer
        trace := [.allocate memory_pool.addr size 8, .compile_runtime_module,
                  .make_kernel_manager params] }
    | none =>
      { result := .ok ()
        state := { s with
          compiled_runtime_module_ := some module
          metal_kernel_mgr_ := some { params := params, compiled_snode_trees := [] } }
        memory_pool := memory_pool.allocate size 8
        result_buffer := buffer
        trace := [.allocate memory_pool.addr size 8, .compile_runtime_module,
                  .make_kernel_manager params] }

/-- The source's `MetalProgramImpl::materialize_runtime` in a call in which the
constructor of the kernel manager returns. -/
def materialize_runtime (env : Env) (s : Session) (memory_pool : MemoryPool)
    (profiler : Nat) (result_buffer : Nat) : MaterializeOutcome :=
  materialize_runtime_with none env s memory_pool profiler result_buffer

/-- The source's `MetalProgramImpl::compile_snode_tree_types_impl`: asserts
`config->use_llvm`, compiles the tree's root, pushes the result and returns
`compiled_snode_trees_.back()`. -/
def compile_snode_tree_types_impl (env : Env) (H : Heap) (s : Session) (tree : SNodeTree) :
    Outcome CompiledStructs :=
  if s.config.use_llvm = false then
    { result := .error (.assertion "Metal arch requires that LLVM being enabled")
      state := s, trace := [] }
  else
    let root := tree.root
    let csnode_tree := env.compile_structs H root
    let s1 : Session :=
      { s with compiled_snode_trees_ := s.compiled_snode_trees_ ++ [csnode_tree] }
    match s1.compiled_snode_trees_.getLast? with
    | none => { result := .error .out_of_bounds, state := s1, trace := [.compile_structs root] }
    | some back => { result := .ok back, state := s1, trace := [.compile_structs root] }

/-- The source's `MetalProgramImpl::compile_snode_tree_types`. -/
def compile_snode_tree_types (env : Env) (H : Heap) (s : Session) (tree : SNodeTree) :
    Outcome Unit :=
  let r := compile_snode_tree_types_impl env H s tree
  match r.result with
  | .error e => { result := .error e, state := r.state, trace := r.trace }
  | .ok _ => { result := .ok (), state := r.state, trace := r.trace }

/-- The source's `MetalProgramImpl::materialize_snode_tree`. -/
def materialize_snode_tree (env : Env) (H : Heap) (s : Session) (tree : SNodeTree)
    (_result_buffer : Nat) : Outcome Unit :=
  let r := compile_snode_tree_types_impl env H s tree
  match r.result with
  | .error e => { result := .error e, state := r.state, trace := r.trace }
  | .ok csnode_tree =>
    match r.state.metal_kernel_mgr_ with
    | none => { result := .error .null_dereference, state := r.state, trace := r.trace }
    | some mgr =>
      { result := .ok ()
        state := { r.state with
          metal_kernel_mgr_ := some (mgr.add_compiled_snode_tree csnode_tree) }
        trace := r.trace ++ [.add_compiled_snode_tree csnode_tree] }

/-- The source's `MetalProgramImpl::make_aot_module_builder`. -/
def make_aot_module_builder (env : Env) (H : Heap) (s : Session) (_caps : Nat) :
    Outcome AotModuleBuilderImpl :=
  if s.compiled_snode_trees_.length > 1 then
    { result := .error (.ti_error "AOT: only supports one SNodeTree"), state := s, trace := [] }
  else
    match s.compiled_snode_trees_[0]? with
    | none => { result := .error .out_of_bounds, state := s, trace := [] }
    | some first =>
      let fields := find_all_dense_snodes H first.snode_descriptors
      if all_fields_are_dense H fields = false then
        { result := .error (.ti_error "AOT: only supports dense field"), state := s, trace := [] }
      else
        match s.compiled_runtime_module_ with
        | none => { result := .error .bad_optional_access, state := s, trace := [] }
        | some module =>
          match s.metal_kernel_mgr_ with
          | none => { result := .error .null_dereference, state := s, trace := [] }
          | some mgr =>
            { result := .ok
                { compiled_runtime_module := module
                  compiled_snode_trees := s.compiled_snode_trees_
                  fields := fields
                  buffer_meta_data := env.get_buffer_meta_data mgr }
              state := s
              trace := [.get_buffer_meta_data, .make_aot_module_builder_impl] }

/-- The source's `MetalProgramImpl::allocate_memory_ndarray`. -/
def allocate_memory_ndarray (env : Env) (s : Session) (alloc_size : Nat)
    (_result_buffer : Nat) : Outcome Nat :=
  let params : AllocParams :=
    { size := alloc_size
      host_read := false
      host_write := false
      usage_storage := true
      export_sharing := false }
  match s.metal_kernel_mgr_ with
  | none => { result := .error .null_dereference, state := s, trace := [] }
  | some mgr =>
    { result := .ok (env.allocate_memory mgr params), state := s
      trace := [.allocate_memory params] }

/-- The source's `MetalProgramImpl::dump_cache_data_to_disk`. -/
def dump_cache_data_to_disk (env : Env) (s : Session) : Outcome Unit :=
  let r := get_cache_manager env s
  match r.result with
  | .error e => { result := .error e, state := r.state, trace := r.trace }
  | .ok _ =>
    let policy := env.string_to_clean_cache_policy r.state.config.offline_cache_cleaning_policy
    { result := .ok ()
      state := r.state
      trace := r.trace ++
        [.string_to_clean_cache_policy r.state.config.offline_cache_cleaning_policy,
         .clean_offline_cache policy r.state.config.offline_cache_max_size_of_files
            r.state.config.offline_cache_cleaning_factor,
         .dump_with_merging] }

/-! ## Sessions as sequences of calls -/

/-- A call of a member function with its arguments; the tree operations carry
the memory they find the tree in, and `materialize_runtime` what the
constructor of the kernel manager does in the call. -/
inductive Op
  | compile (kernel : Nat)
  | get_snode_num_dynamically_allocated (snode : Ptr)
  | materialize_runtime (memory_pool : MemoryPool) (profiler : Nat) (result_buffer : Nat)
      (kernel_manager_raises : Option Error)
  | compile_snode_tree_types (H : Heap) (tree : SNodeTree)
  | materialize_snode_tree (H : Heap) (tree : SNodeTree) (result_buffer : Nat)
  | make_aot_module_builder (H : Heap) (caps : Nat)
  | allocate_memory_ndarray (alloc_size : Nat) (result_buffer : Nat)
  | dump_cache_data_to_disk
  | get_cache_manager

/-- Forget the returned value of an outcome. -/
def Outcome.void {α : Type} (r : Outcome α) : Outcome Unit :=
  match r.result with
  | .error e => { result := .error e, state := r.state, trace := r.trace }
  | .ok _ => { result := .ok (), state := r.state, trace := r.trace }

/-- Run one call on a session. -/
def Op.exec (env : Env) (s : Session) : Op → Outcome Unit
  | .compile kernel => (taichi.lang.compile env s kernel).void
  | .get_snode_num_dynamically_allocated snode =>
    (taichi.lang.get_snode_num_dynamically_allocated env s snode).void
  | .materialize_runtime memory_pool profiler result_buffer kernel_manager_raises =>
    let r := taichi.lang.materialize_runtime_with kernel_manager_raises env s memory_pool
      profiler result_buffer
    { result := r.result, state := r.state, trace := r.trace }
  | .compile_snode_tree_types H tree => taichi.lang.compile_snode_tree_types env H s tree
  | .materialize_snode_tree H tree result_buffer =>
    taichi.lang.materialize_snode_tree env H s tree result_buffer
  | .make_aot_module_builder H caps => (taichi.lang.make_aot_module_builder env H s caps).void
  | .allocate_memory_ndarray alloc_size result_buffer =>
    (taichi.lang.allocate_memory_ndarray env s alloc_size result_buffer).void
  | .dump_cache_data_to_disk => taichi.lang.dump_cache_data_to_disk env s
  | .get_cache_manager => (taichi.lang.get_cache_manager env s).void

/-- The session after a sequence of calls; a call that raises leaves the
session as it was when the error was raised and the sequence goes on. -/
def run (env : Env) (s : Session) : List Op → Session
  | [] => s
  | op :: ops => run env (op.exec env s).state ops

/-- Whether a call is `materialize_runtime`. -/
def Op.is_materialize_runtime : Op → Bool
  | .materialize_runtime _ _ _ _ => true
  | _ => false

/-- Whether some `materialize_runtime` call of the sequence completed without
raising. -/
def materialize_completed (env : Env) (s : Session) : List Op → Bool
  | [] => false
  | op :: ops =>
    (op.is_materialize_runtime && (op.exec env s).result.isOk)
      || materialize_completed env (op.exec env s).state ops

/-- Whether a call is a `materialize_runtime` that got as far as storing the
runtime module: it passed its two assertions and went on to compile the
module. It may have completed, or raised in the constructor of the kernel
manager. -/
def Op.stores_runtime_module (env : Env) (s : Session) (op : Op) : Bool :=
  op.is_materialize_runtime && decide (Event.compile_runtime_module ∈ (op.exec env s).trace)

/-- Whether some `materialize_runtime` call of the sequence got as far as
storing the runtime module. -/
def materialize_stored_module (env : Env) (s : Session) : List Op → Bool
  | [] => false
  | op :: ops =>
    op.stores_runtime_module env s || materialize_stored_module env (op.exec env s).state ops

/-- A session whose runtime has been materialized holds the runtime module and
the kernel manager. -/
def Materialized (s : Session) : Prop :=
  s.compiled_runtime_module_.isSome = true ∧ s.metal_kernel_mgr_.isSome = true

/-- What every call keeps, between the session `s` before and the session `s1`
after: the configuration stays; the runtime module and the kernel manager, once
present, stay present; the registry only grows at its
end. -/
def Keeps (s s1 : Session) : Prop :=
  s1.config = s.config
    ∧ (s.compiled_runtime_module_.isSome = true → s1.compiled_runtime_module_.isSome = true)
    ∧ (s.metal_kernel_mgr_.isSome = true → s1.metal_kernel_mgr_.isSome = true)
    ∧ (∃ t, s1.compiled_snode_trees_ = s.compiled_snode_trees_ ++ t)

/-! ## Concrete sessions -/

/-- Preorder walk from `p` through `ch`, to a given depth. -/
def walk (H : Heap) : Nat → Ptr → List Ptr
  | 0, _ => []
  | depth + 1, p => p :: (H p).ch.foldr (fun c rest => walk H depth c ++ rest) []

/-- A collaborator environment: 32 result slots, a pool that hands out
addresses upwards from its own, and a layout compiler that describes every
node it walks over. -/
def sampleEnv : Env :=
  { taichi_result_buffer_entries := 32
    allocate := fun pool _ _ => pool.addr + 64 + 512 * pool.served.length
    compile_runtime_module := { token := 7 }
    compile_structs := fun H root =>
      { snode_descriptors :=
          (walk H 8 root).map
            (fun p => (Int.ofNat p, { snode := p, stride := 4, mem_offset_in_parent := 0 }))
        root_size := (walk H 8 root).length }
    get_buffer_meta_data := fun mgr => mgr.compiled_snode_trees.length
    get_cache_path_by_arch := fun base => base ++ "/metal"
    load_or_compile := fun _ _ kernel => kernel
    compiled_kernel_to_metal_executable := fun data _ => data
    get_snode_num_dynamically_allocated := fun _ _ => 0
    allocate_memory := fun _ params => params.size
    string_to_clean_cache_policy := fun name => name.length }

/-- A configuration with LLVM enabled. -/
def sampleConfig : CompileConfig :=
  { use_llvm := true
    offline_cache := true
    offline_cache_file_path := "cache"
    offline_cache_cleaning_policy := "lru"
    offline_cache_max_size_of_files := 1024
    offline_cache_cleaning_factor := 0 }

/-- The same configuration with LLVM disabled. -/
def noLlvmConfig : CompileConfig := { sampleConfig with use_llvm := false }

/-- A memory pool that has served nothing yet. -/
def samplePool : MemoryPool := { addr := 4096, served := [] }

/-- A root (0) with two dense children (1, 2); node 1 holds the place node 3,
node 2 the place nodes 4 and 5. -/
def denseHeap : Heap
  | 0 => { type := .root, ch := [1, 2], parent := none }
  | 1 => { type := .dense, ch := [3], parent := some 0 }
  | 2 => { type := .dense, ch := [4, 5], parent := some 0 }
  | 3 => { type := .place, ch := [], parent := some 1 }
  | 4 => { type := .place, ch := [], parent := some 2 }
  | 5 => { type := .place, ch := [], parent := some 2 }
  | _ => { type := .place, ch := [], parent := none }

/-- A root (0) whose only child (1) is a dynamic node holding the place
node 2. -/
def dynamicHeap : Heap
  | 0 => { type := .root, ch := [1], parent := none }
  | 1 => { type := .dynamic, ch := [2], parent := some 0 }
  | 2 => { type := .place, ch := [], parent := some 1 }
  | _ => { type := .place, ch := [], parent := none }

/-- The tree rooted at address 0. -/
def sampleTree : SNodeTree := { id := 0, root := 0 }

/-- A session after `materialize_runtime`. -/
def materializedSession : Session :=
  run sampleEnv (MetalProgramImpl sampleConfig) [.materialize_runtime samplePool 0 nullptr none]

/-- A session after a `materialize_runtime` in which the constructor of the
kernel manager raised. -/
def halfMaterializedSession : Session :=
  run sampleEnv (MetalProgramImpl sampleConfig)
    [.materialize_runtime samplePool 0 nullptr (some (.ti_error "no Metal device"))]

/-- A materialized session that has compiled the all-dense tree. -/
def denseSession : Session :=
  run sampleEnv materializedSession [.materialize_snode_tree denseHeap sampleTree 0]

/-- A materialized session that has compiled the tree with a dynamic node. -/
def dynamicSession : Session :=
  run sampleEnv materializedSession [.materialize_snode_tree dynamicHeap sampleTree 0]

/-- A materialized session that has compiled the all-dense tree twice. -/
def twoTreeSession : Session :=
  run sampleEnv denseSession [.materialize_snode_tree denseHeap sampleTree 0]

/-! ## Facts about the helpers -/

/-- Membership in the set built by the loop of `find_all_dense_snodes`, started
from any set. -/
theorem mem_foldl_dense (H : Heap) (m : SNodeDescriptorsMap) (acc : Finset Ptr) (p : Ptr) :
    p ∈ m.foldl
        (fun res e => if (H e.2.snode).type = SNodeType.dense then insert e.2.snode res else res)
        acc
      ↔ p ∈ acc ∨ ∃ e ∈ m, e.2.snode = p ∧ (H p).type = SNodeType.dense := by
  induction m generalizing acc with
  | nil => simp
  | cons e m ih =>
    rw [List.foldl_cons, ih]
    by_cases hd : (H e.2.snode).type = SNodeType.dense
    · rw [if_pos hd]
      constructor
      · rintro (h | ⟨e1, he1, h1, h2⟩)
        · rcases Finset.mem_insert.mp h with h | h
          · exact Or.inr ⟨e, List.mem_cons_self _ _, h.symm, h ▸ hd⟩
          · exact Or.inl h
        · exact Or.inr ⟨e1, List.mem_cons_of_mem _ he1, h1, h2⟩
      · rintro (h | ⟨e1, he1, h1, h2⟩)
        · exact Or.inl (Finset.mem_insert_of_mem h)
        · rcases List.mem_cons.mp he1 with h | h
          · subst h
            exact Or.inl (Finset.mem_insert.mpr (Or.inl h1.symm))
          · exact Or.inr ⟨e1, h, h1, h2⟩
    · rw [if_neg hd]
      constructor
      · rintro (h | ⟨e1, he1, h1, h2⟩)
        · exact Or.inl h
        · exact Or.inr ⟨e1, List.mem_cons_of_mem _ he1, h1, h2⟩
      · rintro (h | ⟨e1, he1, h1, h2⟩)
        · exact Or.inl h
        · rcases List.mem_cons.mp he1 with h | h
          · subst h
            exact absurd (h1 ▸ h2) hd
          · exact Or.inr ⟨e1, h, h1, h2⟩

/-- The set `find_all_dense_snodes` returns holds exactly the nodes of kind
`dense` that some descriptor names. -/
theorem mem_find_all_dense_snodes (H : Heap) (m : SNodeDescriptorsMap) (p : Ptr) :
    p ∈ find_all_dense_snodes H m
      ↔ ∃ e ∈ m, e.2.snode = p ∧ (H p).type = SNodeType.dense := by
  unfold find_all_dense_snodes
  rw [mem_foldl_dense]
  simp

/-- A round of `all_fields_are_dense` passes exactly when every child is a
`place` node and the parent exists and is of kind `root`. -/
theorem all_fields_are_dense_round_iff (H : Heap) (sn : Ptr) :
    all_fields_are_dense_round H sn = true
      ↔ (∀ ch ∈ (H sn).ch, (H ch).type = SNodeType.place)
        ∧ ∃ parent, (H sn).parent = some parent ∧ (H parent).type = SNodeType.root := by
  unfold all_fields_are_dense_round
  cases hp : (H sn).parent with
  | none => simp
  | some parent =>
    by_cases hc : ∀ ch ∈ (H sn).ch, (H ch).type = SNodeType.place
    · by_cases hr : (H parent).type = SNodeType.root
      · simp [hc, hr]
      · simp [hr]
    · simp [hc]

/-- The result of `all_fields_are_dense` is `true` exactly when every round
passes. -/
theorem all_fields_are_dense_iff (H : Heap) (placed_snodes : Finset Ptr) :
    all_fields_are_dense H placed_snodes = true
      ↔ ∀ sn ∈ placed_snodes, all_fields_are_dense_round H sn = true := by
  unfold all_fields_are_dense
  simp

/-! ## AOT export -/

/-- With root children that are dense and hold only place nodes, every node of
the tree is the root, a child of the root, or a child of such a child. -/
theorem inTree_depth_two (H : Heap) (root : Ptr) (hwf : WellFormed H root)
    (hdense : ∀ c ∈ (H root).ch, ∀ g ∈ (H c).ch, (H g).type = SNodeType.place)
    (p : Ptr) (hp : InTree H root p) :
    p = root ∨ p ∈ (H root).ch ∨ ∃ c ∈ (H root).ch, p ∈ (H c).ch := by
  induction hp with
  | root => exact Or.inl rfl
  | @child q c hq hc ih =>
    rcases ih with h | h | ⟨c1, hc1, hq1⟩
    · subst h
      exact Or.inr (Or.inl hc)
    · exact Or.inr (Or.inr ⟨q, h, hc⟩)
    · have hleaf := hwf.place_leaf q hq (hdense c1 hc1 q hq1)
      rw [hleaf] at hc
      exact absurd hc (List.not_mem_nil c)

/-- A node of the tree other than the root is a child of a node of the tree. -/
theorem inTree_parent (H : Heap) (root p : Ptr) (hp : InTree H root p) :
    p = root ∨ ∃ q, InTree H root q ∧ p ∈ (H q).ch := by
  cases hp with
  | root => exact Or.inl rfl
  | @child q _ hq hc => exact Or.inr ⟨q, hq, hc⟩

/-- The two shape checks the code does make. In a session with one compiled
tree whose descriptors name every node of the tree, a dense node with a child
that is not a place node, or with a parent other than the root, makes
`make_aot_module_builder` raise the dense-field error. -/
theorem dense_shape_violation_rejected (env : Env) (H : Heap) (s : Session) (caps : Nat)
    (tree : SNodeTree) (cs : CompiledStructs)
    (hone : s.compiled_snode_trees_ = [cs])
    (hwf : WellFormed H tree.root)
    (hcover : ∀ p, InTree H tree.root p → ∃ e ∈ cs.snode_descriptors, e.2.snode = p)
    (d : Ptr) (hd : InTree H tree.root d) (hdt : (H d).type = SNodeType.dense)
    (hbad : (∃ c ∈ (H d).ch, (H c).type ≠ SNodeType.place) ∨ (H d).parent ≠ some tree.root) :
    (make_aot_module_builder env H s caps).result
        = .error (.ti_error "AOT: only supports dense field")
      ∧ (make_aot_module_builder env H s caps).state = s
      ∧ (make_aot_module_builder env H s caps).trace = [] := by
  have hmem : d ∈ find_all_dense_snodes H cs.snode_descriptors := by
    rw [mem_find_all_dense_snodes]
    obtain ⟨e, he, hed⟩ := hcover d hd
    exact ⟨e, he, hed, hdt⟩
  have hround : all_fields_are_dense_round H d = false := by
    rw [← Bool.not_eq_true, all_fields_are_dense_round_iff]
    rintro ⟨hch, parent, hpar, hroot⟩
    rcases hbad with ⟨c, hc, hcp⟩ | hne
    · exact hcp (hch c hc)
    · rcases inTree_parent H tree.root d hd with h | ⟨q, hq, hdq⟩
      · rw [h, hwf.root_type] at hdt
        exact absurd hdt (by decide)
      · have hq2 := hwf.child_parent q d hq hdq
        rw [hpar] at hq2
        have hpq : parent = q := Option.some.inj hq2
        subst hpq
        have := hwf.only_root parent hq hroot
        subst this
        exact hne hpar
  have hall : all_fields_are_dense H (find_all_dense_snodes H cs.snode_descriptors) = false := by
    rw [← Bool.not_eq_true, all_fields_are_dense_iff]
    intro h
    rw [h d hmem] at hround
    exact absurd hround (by decide)
  simp [make_aot_module_builder, hone, hall]

/-- Claim C1, evaluated on the code. The session `dynamicSession` has exactly
one compiled tree, its descriptors name every node of the tree, and the only
node beneath the root is a dynamic node holding a place node; yet
`make_aot_module_builder` raises nothing and returns a builder with an empty
dense field set, where the claim asks for the dense-field error. -/
theorem make_aot_module_builder_accepts_dynamic_child :
    dynamicSession.compiled_snode_trees_.length = 1
      ∧ (∀ p, InTree dynamicHeap sampleTree.root p →
          ∃ cs ∈ dynamicSession.compiled_snode_trees_,
            ∃ e ∈ cs.snode_descriptors, e.2.snode = p)
      ∧ (1 ∈ (dynamicHeap sampleTree.root).ch ∧ (dynamicHeap 1).type = SNodeType.dynamic
          ∧ (dynamicHeap 1).ch = [2] ∧ (dynamicHeap 2).type = SNodeType.place)
      ∧ (make_aot_module_builder sampleEnv dynamicHeap dynamicSession 0).result
          = .ok
              { compiled_runtime_module := { token := 7 }
                compiled_snode_trees := dynamicSession.compiled_snode_trees_
                fields := ∅
                buffer_meta_data := 1 }
      ∧ (make_aot_module_builder sampleEnv dynamicHeap dynamicSession 0).result
          ≠ .error (.ti_error "AOT: only supports dense field") := by
  have hnodes : ∀ p, InTree dynamicHeap sampleTree.root p → p = 0 ∨ p = 1 ∨ p = 2 := by
    intro p hp
    induction hp with
    | root => exact Or.inl rfl
    | @child q c _ hc ih =>
      rcases ih with h | h | h <;> subst h <;> simp [dynamicHeap] at hc
      · exact Or.inr (Or.inl hc)
      · exact Or.inr (Or.inr hc)
  have hres : (make_aot_module_builder sampleEnv dynamicHeap dynamicSession 0).result
          = .ok
              { compiled_runtime_module := { token := 7 }
                compiled_snode_trees := dynamicSession.compiled_snode_trees_
                fields := ∅
                buffer_meta_data := 1 } := by
    rfl
  refine ⟨by decide, ?_, by decide, hres, ?_⟩
  · intro p hp
    rcases hnodes p hp with h | h | h <;> subst h <;> decide
  · rw [hres]
    intro h
    cases h

/-- Claim C2. When more than one tree has been compiled,
`make_aot_module_builder` raises the single-tree error whatever the trees and
the memory look like, makes no outside call and leaves the session as it
was. -/
theorem make_aot_module_builder_rejects_several_trees (env : Env) (H : Heap) (s : Session)
    (caps : Nat) (h : 1 < s.compiled_snode_trees_.length) :
    (make_aot_module_builder env H s caps).result
        = .error (.ti_error "AOT: only supports one SNodeTree")
      ∧ (make_aot_module_builder env H s caps).state = s
      ∧ (make_aot_module_builder env H s caps).trace = [] := by
  simp [make_aot_module_builder, h]

/-- Claim C2 on a session that compiled the all-dense tree twice. -/
theorem make_aot_module_builder_rejects_several_trees_witness :
    1 < twoTreeSession.compiled_snode_trees_.length
      ∧ (make_aot_module_builder sampleEnv denseHeap twoTreeSession 0).result
          = .error (.ti_error "AOT: only supports one SNodeTree") :=
  ⟨by decide,
    (make_aot_module_builder_rejects_several_trees sampleEnv denseHeap twoTreeSession 0
      (by decide)).1⟩

/-- Claim C10, evaluated on the code. On a freshly constructed session, which
has no compiled tree, the tree-count test of `make_aot_module_builder` does not
fire and the read of `compiled_snode_trees_[0]` is reached with nothing to
read. -/
theorem make_aot_module_builder_reads_empty_registry (env : Env) (H : Heap)
    (config_ : CompileConfig) (caps : Nat) :
    (MetalProgramImpl config_).compiled_snode_trees_.length = 0
      ∧ ¬ ((MetalProgramImpl config_).compiled_snode_trees_.length > 1)
      ∧ (MetalProgramImpl config_).compiled_snode_trees_[0]? = none
      ∧ (make_aot_module_builder env H (MetalProgramImpl config_) caps).result
          = .error .out_of_bounds := by
  simp [make_aot_module_builder, MetalProgramImpl]

/-- The nodes of the all-dense sample tree. -/
theorem denseHeap_nodes (p : Ptr) (hp : InTree denseHeap 0 p) :
    p = 0 ∨ p = 1 ∨ p = 2 ∨ p = 3 ∨ p = 4 ∨ p = 5 := by
  induction hp with
  | root => exact Or.inl rfl
  | @child q c _ hc ih =>
    rcases ih with h | h | h | h | h | h <;> subst h <;> simp [denseHeap] at hc <;>
      first
        | (subst hc; decide)
        | (rcases hc with h | h <;> subst h <;> decide)

/-- Every address from 0 to 5 is a node of the all-dense sample tree. -/
theorem denseHeap_inTree (p : Ptr) (hp : p ≤ 5) : InTree denseHeap 0 p := by
  have h1 : InTree denseHeap 0 1 := InTree.child InTree.root (by decide)
  have h2 : InTree denseHeap 0 2 := InTree.child InTree.root (by decide)
  have h3 : InTree denseHeap 0 3 := InTree.child h1 (by decide)
  have h4 : InTree denseHeap 0 4 := InTree.child h2 (by decide)
  have h5 : InTree denseHeap 0 5 := InTree.child h2 (by decide)
  interval_cases p
  · exact InTree.root
  · exact h1
  · exact h2
  · exact h3
  · exact h4
  · exact h5

/-- The all-dense sample tree has the shape of a declared tree. -/
theorem denseHeap_wellFormed : WellFormed denseHeap sampleTree.root where
  root_type := rfl
  root_parent := rfl
  child_parent := by
    intro p c hp hc
    rcases denseHeap_nodes p hp with h | h | h | h | h | h <;> subst h <;>
      simp [denseHeap] at hc <;>
      first
        | (subst hc; rfl)
        | (rcases hc with h | h <;> subst h <;> rfl)
  only_root := by
    intro p hp ht
    rcases denseHeap_nodes p hp with h | h | h | h | h | h <;> subst h <;>
      first | rfl | exact absurd ht (by decide)
  place_leaf := by
    intro p hp ht
    rcases denseHeap_nodes p hp with h | h | h | h | h | h <;> subst h <;>
      first | rfl | exact absurd ht (by decide)

/-- Claim C3. In a materialized session with exactly one compiled tree, where
every child of the root is a dense node holding only place nodes, the
descriptors name every child of the root and name only nodes of the tree,
`make_aot_module_builder` returns a builder, and the dense field set it hands
to the builder is exactly the set of the root's children; the session is left
as it was. -/
theorem make_aot_module_builder_all_dense (env : Env) (H : Heap) (s : Session) (caps : Nat)
    (tree : SNodeTree) (cs : CompiledStructs)
    (hmat : Materialized s)
    (hone : s.compiled_snode_trees_ = [cs])
    (hwf : WellFormed H tree.root)
    (hcover : ∀ c ∈ (H tree.root).ch, ∃ e ∈ cs.snode_descriptors, e.2.snode = c)
    (hnodes : ∀ e ∈ cs.snode_descriptors, InTree H tree.root e.2.snode)
    (hdense : ∀ c ∈ (H tree.root).ch,
      (H c).type = SNodeType.dense ∧ ∀ g ∈ (H c).ch, (H g).type = SNodeType.place) :
    ∃ b, (make_aot_module_builder env H s caps).result = .ok b
      ∧ b.fields = (H tree.root).ch.toFinset
      ∧ (∀ p, p ∈ b.fields ↔ p ∈ (H tree.root).ch ∧ (H p).type = SNodeType.dense)
      ∧ b.compiled_snode_trees = [cs]
      ∧ some b.compiled_runtime_module = s.compiled_runtime_module_
      ∧ (make_aot_module_builder env H s caps).state = s := by
  obtain ⟨hmod, hmgr⟩ := hmat
  obtain ⟨module, hmodule⟩ := Option.isSome_iff_exists.mp hmod
  obtain ⟨mgr, hmgr1⟩ := Option.isSome_iff_exists.mp hmgr
  have hfields : find_all_dense_snodes H cs.snode_descriptors = (H tree.root).ch.toFinset := by
    ext p
    rw [mem_find_all_dense_snodes, List.mem_toFinset]
    constructor
    · rintro ⟨e, he, hep, hpd⟩
      have hin : InTree H tree.root p := hep ▸ hnodes e he
      rcases inTree_depth_two H tree.root hwf (fun c hc => (hdense c hc).2) p hin
        with h | h | ⟨c, hc, hpc⟩
      · rw [h, hwf.root_type] at hpd
        exact absurd hpd (by decide)
      · exact h
      · rw [(hdense c hc).2 p hpc] at hpd
        exact absurd hpd (by decide)
    · intro hp
      obtain ⟨e, he, hep⟩ := hcover p hp
      exact ⟨e, he, hep, (hdense p hp).1⟩
  have hall : all_fields_are_dense H (find_all_dense_snodes H cs.snode_descriptors) = true := by
    rw [all_fields_are_dense_iff, hfields]
    intro sn hsn
    rw [List.mem_toFinset] at hsn
    rw [all_fields_are_dense_round_iff]
    exact ⟨(hdense sn hsn).2,
      tree.root, hwf.child_parent tree.root sn InTree.root hsn, hwf.root_type⟩
  refine ⟨{ compiled_runtime_module := module
            compiled_snode_trees := s.compiled_snode_trees_
            fields := find_all_dense_snodes H cs.snode_descriptors
            buffer_meta_data := env.get_buffer_meta_data mgr }, ?_, hfields, ?_, hone, ?_, ?_⟩
  · simp [make_aot_module_builder, hone, hall, hmodule, hmgr1]
  · intro p
    rw [hfields, List.mem_toFinset]
    exact ⟨fun h => ⟨h, (hdense p h).1⟩, fun h => h.1⟩
  · exact hmodule.symm
  · simp [make_aot_module_builder, hone, hall, hmodule, hmgr1]

/-- Claim C3 on the session that materialized the runtime and compiled the tree
whose root has the dense children 1 and 2, each holding only place nodes. -/
theorem make_aot_module_builder_all_dense_witness :
    ∃ b, (make_aot_module_builder sampleEnv denseHeap denseSession 0).result = .ok b
      ∧ b.fields = (denseHeap sampleTree.root).ch.toFinset
      ∧ (∀ p, p ∈ b.fields ↔
          p ∈ (denseHeap sampleTree.root).ch ∧ (denseHeap p).type = SNodeType.dense)
      ∧ b.compiled_snode_trees = [sampleEnv.compile_structs denseHeap sampleTree.root]
      ∧ some b.compiled_runtime_module = denseSession.compiled_runtime_module_
      ∧ (make_aot_module_builder sampleEnv denseHeap denseSession 0).state = denseSession :=
  make_aot_module_builder_all_dense sampleEnv denseHeap denseSession 0 sampleTree
    (sampleEnv.compile_structs denseHeap sampleTree.root)
    ⟨rfl, rfl⟩ rfl denseHeap_wellFormed
    (by decide)
    (by
      intro e he
      have h5 : e.2.snode ≤ 5 := by
        revert e
        decide
      exact denseHeap_inTree e.2.snode h5)
    (by decide)

/-! ## How the member functions change the session -/

/-- Forgetting the returned value changes neither the session nor the trace. -/
theorem Outcome.void_state {α : Type} (r : Outcome α) : r.void.state = r.state := by
  unfold Outcome.void
  split <;> rfl

/-- The function `get_cache_manager` changes at most the member `cache_manager_`. -/
theorem get_cache_manager_state (env : Env) (s : Session) :
    ∃ c, (get_cache_manager env s).state = { s with cache_manager_ := c } := by
  unfold get_cache_manager
  split
  · exact ⟨s.cache_manager_, rfl⟩
  · split
    · exact ⟨s.cache_manager_, rfl⟩
    · exact ⟨_, rfl⟩

/-- Without a runtime module and without a cache manager, `get_cache_manager`
raises and changes nothing. -/
theorem get_cache_manager_unmaterialized (env : Env) (s : Session)
    (hmod : s.compiled_runtime_module_ = none) (hcache : s.cache_manager_ = none) :
    (get_cache_manager env s).result
        = .error (.assertion "compiled_runtime_module_.has_value()")
      ∧ (get_cache_manager env s).state = s ∧ (get_cache_manager env s).trace = [] := by
  simp [get_cache_manager, hmod, hcache]

/-- The session after `compile` is the session after `get_cache_manager`. -/
theorem compile_state (env : Env) (s : Session) (kernel : Nat) :
    (compile env s kernel).state = (get_cache_manager env s).state := by
  unfold compile
  dsimp only
  split <;> rfl

/-- The session after `dump_cache_data_to_disk` is the session after
`get_cache_manager`. -/
theorem dump_cache_data_to_disk_state (env : Env) (s : Session) :
    (dump_cache_data_to_disk env s).state = (get_cache_manager env s).state := by
  unfold dump_cache_data_to_disk
  dsimp only
  split <;> rfl

/-- The function `get_snode_num_dynamically_allocated` leaves the session as it
was. -/
theorem get_snode_num_dynamically_allocated_state (env : Env) (s : Session) (snode : Ptr) :
    (get_snode_num_dynamically_allocated env s snode).state = s := by
  unfold get_snode_num_dynamically_allocated
  split <;> rfl

/-- The function `allocate_memory_ndarray` leaves the session as it was. -/
theorem allocate_memory_ndarray_state (env : Env) (s : Session) (alloc_size rb : Nat) :
    (allocate_memory_ndarray env s alloc_size rb).state = s := by
  unfold allocate_memory_ndarray
  dsimp only
  split <;> rfl

/-- The function `make_aot_module_builder` leaves the session as it was. -/
theorem make_aot_module_builder_state (env : Env) (H : Heap) (s : Session) (caps : Nat) :
    (make_aot_module_builder env H s caps).state = s := by
  unfold make_aot_module_builder
  dsimp only
  repeat' split
  all_goals rfl

/-- The function `materialize_runtime` either raises and leaves the session as
it was, or finds no kernel manager and sets the runtime module and the kernel
manager. -/
theorem materialize_runtime_state (env : Env) (s : Session) (memory_pool : MemoryPool)
    (profiler result_buffer : Nat) :
    ((materialize_runtime env s memory_pool profiler result_buffer).result.isOk = false
        ∧ (materialize_runtime env s memory_pool profiler result_buffer).state = s)
      ∨ ((materialize_runtime env s memory_pool profiler result_buffer).result = .ok ()
        ∧ s.metal_kernel_mgr_ = none
        ∧ ∃ mgr, (materialize_runtime env s memory_pool profiler result_buffer).state
            = { s with compiled_runtime_module_ := some env.compile_runtime_module
                       metal_kernel_mgr_ := some mgr }) := by
  unfold materialize_runtime materialize_runtime_with
  split
  · exact Or.inl ⟨rfl, rfl⟩
  · split
    · exact Or.inl ⟨rfl, rfl⟩
    · rename_i h
      exact Or.inr ⟨rfl, not_not.mp h, _, rfl⟩

/-- A call of `materialize_runtime` does one of three things. It fails one of
its two assertions, makes no outside call and leaves the session as it was. Or
it finds no kernel manager, stores the runtime module, and the constructor of
the kernel manager raises. Or it finds no kernel manager, stores the runtime
module and the kernel manager, and returns. -/
theorem materialize_runtime_with_state (raises : Option Error) (env : Env) (s : Session)
    (memory_pool : MemoryPool) (profiler result_buffer : Nat) :
    ((materialize_runtime_with raises env s memory_pool profiler result_buffer).result.isOk
          = false
        ∧ (materialize_runtime_with raises env s memory_pool profiler result_buffer).trace = []
        ∧ (materialize_runtime_with raises env s memory_pool profiler result_buffer).state = s)
      ∨ ((materialize_runtime_with raises env s memory_pool profiler result_buffer).result.isOk
          = false
        ∧ Event.compile_runtime_module
            ∈ (materialize_runtime_with raises env s memory_pool profiler result_buffer).trace
        ∧ s.metal_kernel_mgr_ = none
        ∧ (materialize_runtime_with raises env s memory_pool profiler result_buffer).state
            = { s with compiled_runtime_module_ := some env.compile_runtime_module })
      ∨ ((materialize_runtime_with raises env s memory_pool profiler result_buffer).result
          = .ok ()
        ∧ Event.compile_runtime_module
            ∈ (materialize_runtime_with raises env s memory_pool profiler result_buffer).trace
        ∧ s.metal_kernel_mgr_ = none
        ∧ ∃ mgr, (materialize_runtime_with raises env s memory_pool profiler result_buffer).state
            = { s with compiled_runtime_module_ := some env.compile_runtime_module
                       metal_kernel_mgr_ := some mgr }) := by
  unfold materialize_runtime_with
  split
  · exact Or.inl ⟨rfl, rfl, rfl⟩
  · split
    · exact Or.inl ⟨rfl, rfl, rfl⟩
    · rename_i h
      cases raises with
      | some e => exact Or.inr (Or.inl ⟨rfl, by simp, not_not.mp h, rfl⟩)
      | none => exact Or.inr (Or.inr ⟨rfl, by simp, not_not.mp h, _, rfl⟩)

/-- The function `compile_snode_tree_types_impl` either raises and leaves the
session as it was, or returns the compiled root after pushing it. -/
theorem compile_snode_tree_types_impl_cases (env : Env) (H : Heap) (s : Session)
    (tree : SNodeTree) :
    (s.config.use_llvm = false
        ∧ (compile_snode_tree_types_impl env H s tree).result
            = .error (.assertion "Metal arch requires that LLVM being enabled")
        ∧ (compile_snode_tree_types_impl env H s tree).state = s
        ∧ (compile_snode_tree_types_impl env H s tree).trace = [])
      ∨ (s.config.use_llvm = true
        ∧ (compile_snode_tree_types_impl env H s tree).result
            = .ok (env.compile_structs H tree.root)
        ∧ (compile_snode_tree_types_impl env H s tree).state
            = { s with compiled_snode_trees_ :=
                  s.compiled_snode_trees_ ++ [env.compile_structs H tree.root] }
        ∧ (compile_snode_tree_types_impl env H s tree).trace
            = [.compile_structs tree.root]) := by
  unfold compile_snode_tree_types_impl
  cases hl : s.config.use_llvm
  · left
    simp
  · right
    simp

/-- The session after `compile_snode_tree_types` is the session after
`compile_snode_tree_types_impl`. -/
theorem compile_snode_tree_types_state (env : Env) (H : Heap) (s : Session)
    (tree : SNodeTree) :
    (compile_snode_tree_types env H s tree).state
      = (compile_snode_tree_types_impl env H s tree).state := by
  unfold compile_snode_tree_types
  dsimp only
  split <;> rfl

/-- The function `materialize_snode_tree` changes the session as
`compile_snode_tree_types_impl` does and then, at most, replaces a kernel
manager that is present. -/
theorem materialize_snode_tree_state (env : Env) (H : Heap) (s : Session)
    (tree : SNodeTree) (rb : Nat) :
    (materialize_snode_tree env H s tree rb).state
        = (compile_snode_tree_types_impl env H s tree).state
      ∨ ∃ mgr mgr1, (compile_snode_tree_types_impl env H s tree).state.metal_kernel_mgr_
            = some mgr
          ∧ (materialize_snode_tree env H s tree rb).state
            = { (compile_snode_tree_types_impl env H s tree).state with
                  metal_kernel_mgr_ := some mgr1 } := by
  unfold materialize_snode_tree
  dsimp only
  split
  · exact Or.inl rfl
  · split
    · exact Or.inl rfl
    · rename_i mgr hm
      exact Or.inr ⟨mgr, _, hm, rfl⟩

/-- What one call does to each member: the configuration stays; the runtime
module and the kernel manager, once present, stay present; the registry only
grows at its end. -/
theorem exec_keeps (env : Env) (s : Session) (op : Op) : Keeps s (op.exec env s).state := by
  have hrefl : ∀ c : Option CacheManager, Keeps s { s with cache_manager_ := c } :=
    fun c => ⟨rfl, fun h => h, fun h => h, [], by simp⟩
  have hself : Keeps s s := hrefl s.cache_manager_
  cases op with
  | compile kernel =>
    obtain ⟨c, hc⟩ := get_cache_manager_state env s
    have h : ((Op.compile kernel).exec env s).state = { s with cache_manager_ := c } := by
      simp only [Op.exec, Outcome.void_state, compile_state, hc]
    rw [h]
    exact hrefl c
  | get_snode_num_dynamically_allocated snode =>
    have h : ((Op.get_snode_num_dynamically_allocated snode).exec env s).state = s := by
      simp only [Op.exec, Outcome.void_state, get_snode_num_dynamically_allocated_state]
    rw [h]
    exact hself
  | materialize_runtime memory_pool profiler result_buffer raises =>
    have h0 : ((Op.materialize_runtime memory_pool profiler result_buffer raises).exec env
          s).state
        = (materialize_runtime_with raises env s memory_pool profiler result_buffer).state :=
      rfl
    rw [h0]
    rcases materialize_runtime_with_state raises env s memory_pool profiler result_buffer
      with ⟨_, _, h⟩ | ⟨_, _, hnone, h⟩ | ⟨_, _, hnone, mgr, h⟩
    · rw [h]
      exact hself
    · rw [h]
      refine ⟨rfl, fun _ => rfl, fun hsome => ?_, [], by simp⟩
      rw [hnone] at hsome
      exact absurd hsome (by decide)
    · rw [h]
      exact ⟨rfl, fun _ => rfl, fun _ => rfl, [], by simp⟩
  | compile_snode_tree_types H tree =>
    have h0 : ((Op.compile_snode_tree_types H tree).exec env s).state
        = (compile_snode_tree_types_impl env H s tree).state := by
      simp only [Op.exec, compile_snode_tree_types_state]
    rw [h0]
    rcases compile_snode_tree_types_impl_cases env H s tree with ⟨_, _, h, _⟩ | ⟨_, _, h, _⟩
    · rw [h]
      exact hself
    · rw [h]
      exact ⟨rfl, fun h => h, fun h => h, _, rfl⟩
  | materialize_snode_tree H tree result_buffer =>
    have h0 : ((Op.materialize_snode_tree H tree result_buffer).exec env s).state
        = (materialize_snode_tree env H s tree result_buffer).state := rfl
    rw [h0]
    rcases materialize_snode_tree_state env H s tree result_buffer with h1 | ⟨mgr, mgr1, hm, h1⟩
    · rw [h1]
      rcases compile_snode_tree_types_impl_cases env H s tree with ⟨_, _, h, _⟩ | ⟨_, _, h, _⟩
      · rw [h]
        exact hself
      · rw [h]
        exact ⟨rfl, fun h => h, fun h => h, _, rfl⟩
    · rw [h1]
      rcases compile_snode_tree_types_impl_cases env H s tree with ⟨_, _, h, _⟩ | ⟨_, _, h, _⟩
      · rw [h]
        exact ⟨rfl, fun h => h, fun _ => rfl, [], by simp⟩
      · rw [h]
        exact ⟨rfl, fun h => h, fun _ => rfl, _, rfl⟩
  | make_aot_module_builder H caps =>
    have h : ((Op.make_aot_module_builder H caps).exec env s).state = s := by
      simp only [Op.exec, Outcome.void_state, make_aot_module_builder_state]
    rw [h]
    exact hself
  | allocate_memory_ndarray alloc_size result_buffer =>
    have h : ((Op.allocate_memory_ndarray alloc_size result_buffer).exec env s).state = s := by
      simp only [Op.exec, Outcome.void_state, allocate_memory_ndarray_state]
    rw [h]
    exact hself
  | dump_cache_data_to_disk =>
    obtain ⟨c, hc⟩ := get_cache_manager_state env s
    have h : (Op.dump_cache_data_to_disk.exec env s).state = { s with cache_manager_ := c } := by
      simp only [Op.exec, dump_cache_data_to_disk_state, hc]
    rw [h]
    exact hrefl c
  | get_cache_manager =>
    obtain ⟨c, hc⟩ := get_cache_manager_state env s
    have h : (Op.get_cache_manager.exec env s).state = { s with cache_manager_ := c } := by
      simp only [Op.exec, Outcome.void_state, hc]
    rw [h]
    exact hrefl c

/-- The same over a sequence of calls. -/
theorem run_keeps (env : Env) (s : Session) (ops : List Op) : Keeps s (run env s ops) := by
  induction ops generalizing s with
  | nil => exact ⟨rfl, fun h => h, fun h => h, [], (List.append_nil _).symm⟩
  | cons op ops ih =>
    obtain ⟨a1, a2, a3, t1, a4⟩ := exec_keeps env s op
    obtain ⟨b1, b2, b3, t2, b4⟩ := ih (op.exec env s).state
    refine ⟨b1.trans a1, fun h => b2 (a2 h), fun h => b3 (a3 h), t1 ++ t2, ?_⟩
    show (run env (op.exec env s).state ops).compiled_snode_trees_ = _
    rw [b4, a4, List.append_assoc]

/-- A completed `materialize_runtime` leaves a materialized session, and so
does every sequence of calls after it. -/
theorem run_materialized (env : Env) (s : Session) (memory_pool : MemoryPool)
    (profiler result_buffer : Nat) (ops : List Op)
    (h : (materialize_runtime env s memory_pool profiler result_buffer).result = .ok ()) :
    Materialized
      (run env (materialize_runtime env s memory_pool profiler result_buffer).state ops) := by
  obtain ⟨_, hmod, hmgr, _⟩ :=
    run_keeps env (materialize_runtime env s memory_pool profiler result_buffer).state ops
  rcases materialize_runtime_state env s memory_pool profiler result_buffer
    with ⟨hno, _⟩ | ⟨_, _, mgr, hs⟩
  · rw [h] at hno
    exact absurd hno (by decide)
  · exact ⟨hmod (by rw [hs]; rfl), hmgr (by rw [hs]; rfl)⟩

/-- The function `get_cache_manager` changes the session only when the runtime
module is present. -/
theorem get_cache_manager_state_cases (env : Env) (s : Session) :
    (get_cache_manager env s).state = s ∨ s.compiled_runtime_module_.isSome = true := by
  unfold get_cache_manager
  split
  · exact Or.inl rfl
  · split
    · exact Or.inl rfl
    · rename_i h
      exact Or.inr (by rw [h]; rfl)

/-- One call leaves the member `cache_manager_` as it was unless the runtime
module is present. -/
theorem exec_cache_manager (env : Env) (s : Session) (op : Op) :
    (op.exec env s).state.cache_manager_ = s.cache_manager_
      ∨ s.compiled_runtime_module_.isSome = true := by
  cases op with
  | compile kernel =>
    have h : ((Op.compile kernel).exec env s).state = (get_cache_manager env s).state := by
      simp only [Op.exec, Outcome.void_state, compile_state]
    rw [h]
    exact (get_cache_manager_state_cases env s).imp (fun h => by rw [h]) id
  | get_snode_num_dynamically_allocated snode =>
    have h : ((Op.get_snode_num_dynamically_allocated snode).exec env s).state = s := by
      simp only [Op.exec, Outcome.void_state, get_snode_num_dynamically_allocated_state]
    rw [h]
    exact Or.inl rfl
  | materialize_runtime memory_pool profiler result_buffer raises =>
    have h0 : ((Op.materialize_runtime memory_pool profiler result_buffer raises).exec env
          s).state
        = (materialize_runtime_with raises env s memory_pool profiler result_buffer).state :=
      rfl
    rw [h0]
    rcases materialize_runtime_with_state raises env s memory_pool profiler result_buffer
      with ⟨_, _, h⟩ | ⟨_, _, _, h⟩ | ⟨_, _, _, mgr, h⟩ <;> rw [h] <;> exact Or.inl rfl
  | compile_snode_tree_types H tree =>
    have h0 : ((Op.compile_snode_tree_types H tree).exec env s).state
        = (compile_snode_tree_types_impl env H s tree).state := by
      simp only [Op.exec, compile_snode_tree_types_state]
    rw [h0]
    rcases compile_snode_tree_types_impl_cases env H s tree with ⟨_, _, h, _⟩ | ⟨_, _, h, _⟩ <;>
      rw [h] <;> exact Or.inl rfl
  | materialize_snode_tree H tree result_buffer =>
    have h0 : ((Op.materialize_snode_tree H tree result_buffer).exec env s).state
        = (materialize_snode_tree env H s tree result_buffer).state := rfl
    rw [h0]
    rcases materialize_snode_tree_state env H s tree result_buffer with h1 | ⟨mgr, mgr1, _, h1⟩ <;>
      rw [h1] <;>
      rcases compile_snode_tree_types_impl_cases env H s tree with ⟨_, _, h, _⟩ | ⟨_, _, h, _⟩ <;>
      rw [h] <;> exact Or.inl rfl
  | make_aot_module_builder H caps =>
    have h : ((Op.make_aot_module_builder H caps).exec env s).state = s := by
      simp only [Op.exec, Outcome.void_state, make_aot_module_builder_state]
    rw [h]
    exact Or.inl rfl
  | allocate_memory_ndarray alloc_size result_buffer =>
    have h : ((Op.allocate_memory_ndarray alloc_size result_buffer).exec env s).state = s := by
      simp only [Op.exec, Outcome.void_state, allocate_memory_ndarray_state]
    rw [h]
    exact Or.inl rfl
  | dump_cache_data_to_disk =>
    have h : (Op.dump_cache_data_to_disk.exec env s).state = (get_cache_manager env s).state := by
      simp only [Op.exec, dump_cache_data_to_disk_state]
    rw [h]
    exact (get_cache_manager_state_cases env s).imp (fun h => by rw [h]) id
  | get_cache_manager =>
    have h : (Op.get_cache_manager.exec env s).state = (get_cache_manager env s).state := by
      simp only [Op.exec, Outcome.void_state]
    rw [h]
    exact (get_cache_manager_state_cases env s).imp (fun h => by rw [h]) id

/-- One call leaves the member `compiled_runtime_module_` as it was unless it
is a `materialize_runtime` that got as far as storing the module. -/
theorem exec_runtime_module (env : Env) (s : Session) (op : Op) :
    (op.exec env s).state.compiled_runtime_module_ = s.compiled_runtime_module_
      ∨ op.stores_runtime_module env s = true := by
  cases op with
  | compile kernel =>
    obtain ⟨c, hc⟩ := get_cache_manager_state env s
    have h : ((Op.compile kernel).exec env s).state = { s with cache_manager_ := c } := by
      simp only [Op.exec, Outcome.void_state, compile_state, hc]
    rw [h]
    exact Or.inl rfl
  | get_snode_num_dynamically_allocated snode =>
    have h : ((Op.get_snode_num_dynamically_allocated snode).exec env s).state = s := by
      simp only [Op.exec, Outcome.void_state, get_snode_num_dynamically_allocated_state]
    rw [h]
    exact Or.inl rfl
  | materialize_runtime memory_pool profiler result_buffer raises =>
    have h0 : ((Op.materialize_runtime memory_pool profiler result_buffer raises).exec env
          s).state
        = (materialize_runtime_with raises env s memory_pool profiler result_buffer).state :=
      rfl
    have h1 : ((Op.materialize_runtime memory_pool profiler result_buffer raises).exec env
          s).trace
        = (materialize_runtime_with raises env s memory_pool profiler result_buffer).trace :=
      rfl
    rcases materialize_runtime_with_state raises env s memory_pool profiler result_buffer
      with ⟨_, _, h⟩ | ⟨_, ht, _, _⟩ | ⟨_, ht, _, _⟩
    · rw [h0, h]
      exact Or.inl rfl
    · right
      simp only [Op.stores_runtime_module, Op.is_materialize_runtime, h1, Bool.true_and]
      exact decide_eq_true ht
    · right
      simp only [Op.stores_runtime_module, Op.is_materialize_runtime, h1, Bool.true_and]
      exact decide_eq_true ht
  | compile_snode_tree_types H tree =>
    have h0 : ((Op.compile_snode_tree_types H tree).exec env s).state
        = (compile_snode_tree_types_impl env H s tree).state := by
      simp only [Op.exec, compile_snode_tree_types_state]
    rw [h0]
    rcases compile_snode_tree_types_impl_cases env H s tree with ⟨_, _, h, _⟩ | ⟨_, _, h, _⟩ <;>
      rw [h] <;> exact Or.inl rfl
  | materialize_snode_tree H tree result_buffer =>
    have h0 : ((Op.materialize_snode_tree H tree result_buffer).exec env s).state
        = (materialize_snode_tree env H s tree result_buffer).state := rfl
    rw [h0]
    rcases materialize_snode_tree_state env H s tree result_buffer with h1 | ⟨mgr, mgr1, _, h1⟩ <;>
      rw [h1] <;>
      rcases compile_snode_tree_types_impl_cases env H s tree with ⟨_, _, h, _⟩ | ⟨_, _, h, _⟩ <;>
      rw [h] <;> exact Or.inl rfl
  | make_aot_module_builder H caps =>
    have h : ((Op.make_aot_module_builder H caps).exec env s).state = s := by
      simp only [Op.exec, Outcome.void_state, make_aot_module_builder_state]
    rw [h]
    exact Or.inl rfl
  | allocate_memory_ndarray alloc_size result_buffer =>
    have h : ((Op.allocate_memory_ndarray alloc_size result_buffer).exec env s).state = s := by
      simp only [Op.exec, Outcome.void_state, allocate_memory_ndarray_state]
    rw [h]
    exact Or.inl rfl
  | dump_cache_data_to_disk =>
    obtain ⟨c, hc⟩ := get_cache_manager_state env s
    have h : (Op.dump_cache_data_to_disk.exec env s).state = { s with cache_manager_ := c } := by
      simp only [Op.exec, dump_cache_data_to_disk_state, hc]
    rw [h]
    exact Or.inl rfl
  | get_cache_manager =>
    obtain ⟨c, hc⟩ := get_cache_manager_state env s
    have h : (Op.get_cache_manager.exec env s).state = { s with cache_manager_ := c } := by
      simp only [Op.exec, Outcome.void_state, hc]
    rw [h]
    exact Or.inl rfl

/-- A `materialize_runtime` that completes has stored the runtime module. -/
theorem stores_of_completed (env : Env) (s : Session) (op : Op)
    (h : (op.is_materialize_runtime && (op.exec env s).result.isOk) = true) :
    op.stores_runtime_module env s = true := by
  cases op with
  | materialize_runtime memory_pool profiler result_buffer raises =>
    have h1 : ((Op.materialize_runtime memory_pool profiler result_buffer raises).exec env
          s).trace
        = (materialize_runtime_with raises env s memory_pool profiler result_buffer).trace :=
      rfl
    have h2 : ((Op.materialize_runtime memory_pool profiler result_buffer raises).exec env
          s).result
        = (materialize_runtime_with raises env s memory_pool profiler result_buffer).result :=
      rfl
    simp only [Op.is_materialize_runtime, h2, Bool.true_and] at h
    simp only [Op.stores_runtime_module, Op.is_materialize_runtime, h1, Bool.true_and]
    rcases materialize_runtime_with_state raises env s memory_pool profiler result_buffer
      with ⟨hno, _, _⟩ | ⟨hno, _, _, _⟩ | ⟨_, ht, _, _⟩
    · rw [h] at hno
      exact absurd hno (by decide)
    · rw [h] at hno
      exact absurd hno (by decide)
    · exact decide_eq_true ht
  | _ => simp [Op.is_materialize_runtime] at h

/-- When no `materialize_runtime` call of a sequence stored the runtime module,
none completed. -/
theorem completed_false_of_stored_false (env : Env) (s : Session) (ops : List Op)
    (h : materialize_stored_module env s ops = false) :
    materialize_completed env s ops = false := by
  induction ops generalizing s with
  | nil => rfl
  | cons op ops ih =>
    simp only [materialize_stored_module, Bool.or_eq_false_iff] at h
    obtain ⟨h1, h2⟩ := h
    simp only [materialize_completed, Bool.or_eq_false_iff]
    refine ⟨?_, ih (op.exec env s).state h2⟩
    cases hc : (op.is_materialize_runtime && (op.exec env s).result.isOk) with
    | false => rfl
    | true =>
      rw [stores_of_completed env s op hc] at h1
      exact absurd h1 (by decide)

/-- As long as no `materialize_runtime` has stored the runtime module, a
session that started without runtime module and cache manager has neither. -/
theorem run_unmaterialized (env : Env) (s : Session) (ops : List Op)
    (hmod : s.compiled_runtime_module_ = none) (hcache : s.cache_manager_ = none)
    (h : materialize_stored_module env s ops = false) :
    (run env s ops).compiled_runtime_module_ = none ∧ (run env s ops).cache_manager_ = none := by
  induction ops generalizing s with
  | nil => exact ⟨hmod, hcache⟩
  | cons op ops ih =>
    simp only [materialize_stored_module, Bool.or_eq_false_iff] at h
    obtain ⟨h1, h2⟩ := h
    have hm : (op.exec env s).state.compiled_runtime_module_ = none := by
      rcases exec_runtime_module env s op with h3 | h3
      · rw [h3, hmod]
      · rw [h3] at h1
        exact absurd h1 (by decide)
    have hc : (op.exec env s).state.cache_manager_ = none := by
      rcases exec_cache_manager env s op with h3 | h3
      · rw [h3, hcache]
      · rw [hmod] at h3
        exact absurd h3 (by decide)
    exact ih (op.exec env s).state hm hc h2

/-- The invariant that a cache manager exists only if the runtime module
exists is kept by every sequence of calls; it holds on a freshly constructed
session, which has neither. -/
theorem run_cache_manager_needs_module (env : Env) (s : Session) (ops : List Op)
    (hinv : s.cache_manager_.isSome = true → s.compiled_runtime_module_.isSome = true) :
    (run env s ops).cache_manager_.isSome = true →
      (run env s ops).compiled_runtime_module_.isSome = true := by
  induction ops generalizing s with
  | nil => exact hinv
  | cons op ops ih =>
    apply ih (op.exec env s).state
    intro hc
    obtain ⟨_, hk, _, _⟩ := exec_keeps env s op
    rcases exec_cache_manager env s op with h3 | h3
    · rw [h3] at hc
      exact hk (hinv hc)
    · exact hk h3

/-! ## Layout compilation -/

/-- Claim C4 fails as stated. On a freshly constructed session, on which
`materialize_runtime` has never run, with LLVM enabled,
`compile_snode_tree_types` raises nothing and the registry grows from no entry
to one. -/
theorem compile_snode_tree_types_before_materialize_runtime :
    materialize_completed sampleEnv (MetalProgramImpl sampleConfig) [] = false
      ∧ (MetalProgramImpl sampleConfig).compiled_runtime_module_ = none
      ∧ (MetalProgramImpl sampleConfig).metal_kernel_mgr_ = none
      ∧ (compile_snode_tree_types sampleEnv denseHeap (MetalProgramImpl sampleConfig)
            sampleTree).result = .ok ()
      ∧ (MetalProgramImpl sampleConfig).compiled_snode_trees_.length = 0
      ∧ (compile_snode_tree_types sampleEnv denseHeap (MetalProgramImpl sampleConfig)
            sampleTree).state.compiled_snode_trees_.length = 1 :=
  ⟨rfl, rfl, rfl, rfl, rfl, rfl⟩

/-- Claim C4 as amended. In every session whose configuration has `use_llvm`
off, whether or not `materialize_runtime` has run, `compile_snode_tree_types`
and `compile_snode_tree_types_impl` raise the assertion error for every tree,
make no outside call and leave the session, and with it the length and the
contents of the registry, as they were. -/
theorem compile_snode_tree_types_requires_llvm (env : Env) (H : Heap) (s : Session)
    (tree : SNodeTree) (h : s.config.use_llvm = false) :
    (compile_snode_tree_types env H s tree).result
        = .error (.assertion "Metal arch requires that LLVM being enabled")
      ∧ (compile_snode_tree_types_impl env H s tree).result
        = .error (.assertion "Metal arch requires that LLVM being enabled")
      ∧ (compile_snode_tree_types env H s tree).state = s
      ∧ (compile_snode_tree_types env H s tree).state.compiled_snode_trees_.length
        = s.compiled_snode_trees_.length
      ∧ (compile_snode_tree_types env H s tree).state.compiled_snode_trees_
        = s.compiled_snode_trees_
      ∧ (compile_snode_tree_types env H s tree).trace = [] := by
  simp [compile_snode_tree_types, compile_snode_tree_types_impl, h]

/-- Claim C4 as amended, on a fresh session with LLVM disabled. -/
theorem compile_snode_tree_types_requires_llvm_witness :
    (MetalProgramImpl noLlvmConfig).config.use_llvm = false
      ∧ (compile_snode_tree_types sampleEnv denseHeap (MetalProgramImpl noLlvmConfig)
            sampleTree).result
          = .error (.assertion "Metal arch requires that LLVM being enabled")
      ∧ (compile_snode_tree_types sampleEnv denseHeap (MetalProgramImpl noLlvmConfig)
            sampleTree).state.compiled_snode_trees_ = [] :=
  ⟨rfl,
    (compile_snode_tree_types_requires_llvm sampleEnv denseHeap (MetalProgramImpl noLlvmConfig)
      sampleTree rfl).1,
    (compile_snode_tree_types_requires_llvm sampleEnv denseHeap (MetalProgramImpl noLlvmConfig)
      sampleTree rfl).2.2.2.2.1⟩

/-- Claim C8. Whatever the session and the call, the registry before the call
is an initial segment of the registry after it. When
`compile_snode_tree_types_impl` returns, it returns `compile_structs` of the
tree's root, and that value is the one new entry, at the end of the registry;
`compile_snode_tree_types` that succeeds leaves the same registry; and
`materialize_snode_tree` that succeeds leaves the same registry and has
registered that entry with the kernel manager. -/
theorem compiled_snode_trees_append_only (env : Env) (s : Session) :
    (∀ op : Op, s.compiled_snode_trees_ <+: (op.exec env s).state.compiled_snode_trees_)
      ∧ (∀ (H : Heap) (tree : SNodeTree) (back : CompiledStructs),
          (compile_snode_tree_types_impl env H s tree).result = .ok back →
            back = env.compile_structs H tree.root
            ∧ (compile_snode_tree_types_impl env H s tree).state.compiled_snode_trees_
                = s.compiled_snode_trees_ ++ [back]
            ∧ (compile_snode_tree_types_impl env H s tree).state.compiled_snode_trees_.getLast?
                = some back)
      ∧ (∀ (H : Heap) (tree : SNodeTree),
          (compile_snode_tree_types env H s tree).result = .ok () →
            (compile_snode_tree_types env H s tree).state.compiled_snode_trees_
              = s.compiled_snode_trees_ ++ [env.compile_structs H tree.root])
      ∧ (∀ (H : Heap) (tree : SNodeTree) (rb : Nat),
          (materialize_snode_tree env H s tree rb).result = .ok () →
            (materialize_snode_tree env H s tree rb).state.compiled_snode_trees_
                = s.compiled_snode_trees_ ++ [env.compile_structs H tree.root]
            ∧ ∃ mgr, s.metal_kernel_mgr_ = some mgr
                ∧ (materialize_snode_tree env H s tree rb).state.metal_kernel_mgr_
                  = some (mgr.add_compiled_snode_tree (env.compile_structs H tree.root))) := by
  refine ⟨?_, ?_, ?_, ?_⟩
  · intro op
    obtain ⟨_, _, _, t, ht⟩ := exec_keeps env s op
    exact ⟨t, ht.symm⟩
  · intro H tree back hok
    rcases compile_snode_tree_types_impl_cases env H s tree with ⟨_, hr, _, _⟩ | ⟨_, hr, hs, _⟩
    · rw [hr] at hok
      cases hok
    · rw [hr] at hok
      cases hok
      rw [hs]
      simp
  · intro H tree hok
    rw [compile_snode_tree_types_state]
    rcases compile_snode_tree_types_impl_cases env H s tree with ⟨_, hr, _, _⟩ | ⟨_, _, hs, _⟩
    · simp [compile_snode_tree_types, hr] at hok
    · rw [hs]
  · intro H tree rb hok
    rcases compile_snode_tree_types_impl_cases env H s tree with ⟨_, hr, _, _⟩ | ⟨_, hr, hs, _⟩
    · simp [materialize_snode_tree, hr] at hok
    · cases hm : s.metal_kernel_mgr_ with
      | none => simp [materialize_snode_tree, hr, hs, hm] at hok
      | some mgr => simp [materialize_snode_tree, hr, hs, hm]

/-- Claim C8 on the materialized sample session: `materialize_snode_tree`
succeeds, the registry goes from empty to the one compiled tree, and the
kernel manager holds that tree. -/
theorem compiled_snode_trees_append_only_witness :
    (materialize_snode_tree sampleEnv denseHeap materializedSession sampleTree 0).result = .ok ()
      ∧ materializedSession.compiled_snode_trees_ = []
      ∧ (materialize_snode_tree sampleEnv denseHeap materializedSession sampleTree
            0).state.compiled_snode_trees_
          = materializedSession.compiled_snode_trees_
              ++ [sampleEnv.compile_structs denseHeap sampleTree.root]
      ∧ ∃ mgr, materializedSession.metal_kernel_mgr_ = some mgr
          ∧ (materialize_snode_tree sampleEnv denseHeap materializedSession sampleTree
                0).state.metal_kernel_mgr_
            = some (mgr.add_compiled_snode_tree
                (sampleEnv.compile_structs denseHeap sampleTree.root)) :=
  ⟨rfl, rfl,
    ((compiled_snode_trees_append_only sampleEnv materializedSession).2.2.2
      denseHeap sampleTree 0 rfl).1,
    ((compiled_snode_trees_append_only sampleEnv materializedSession).2.2.2
      denseHeap sampleTree 0 rfl).2⟩

/-! ## Runtime materialization -/

/-- Claim C9. On a session without kernel manager and with a null result
buffer slot, when the size of the result buffer fits a `size_t`,
`materialize_runtime` succeeds: it asks the caller's pool once, for
`sizeof(uint64) * taichi_result_buffer_entries` bytes, eight per slot, aligned
to 8, and stores the address it got in the slot; the runtime module is the one
just compiled; and the kernel manager is the one constructed from that module,
the session's configuration, that address, and the caller's pool and
profiler. -/
theorem materialize_runtime_fresh (env : Env) (s : Session) (memory_pool : MemoryPool)
    (profiler : Nat) (hfresh : s.metal_kernel_mgr_ = none)
    (hsize : sizeof_uint64 * env.taichi_result_buffer_entries < 2 ^ 64) :
    (materialize_runtime env s memory_pool profiler nullptr).result = .ok ()
      ∧ (materialize_runtime env s memory_pool profiler nullptr).result_buffer
          = env.allocate memory_pool (8 * env.taichi_result_buffer_entries) 8
      ∧ (materialize_runtime env s memory_pool profiler nullptr).memory_pool.served
          = memory_pool.served ++ [(8 * env.taichi_result_buffer_entries, 8)]
      ∧ (materialize_runtime env s memory_pool profiler nullptr).state.compiled_runtime_module_
          = some env.compile_runtime_module
      ∧ (materialize_runtime env s memory_pool profiler nullptr).state.metal_kernel_mgr_
          = some
              { params :=
                  { compiled_runtime_module := env.compile_runtime_module
                    config := s.config
                    host_result_buffer :=
                      (materialize_runtime env s memory_pool profiler nullptr).result_buffer
                    mem_pool := memory_pool.addr
                    profiler := profiler }
                compiled_snode_trees := [] }
      ∧ (materialize_runtime env s memory_pool profiler nullptr).trace
          = [.allocate memory_pool.addr (8 * env.taichi_result_buffer_entries) 8,
             .compile_runtime_module,
             .make_kernel_manager
               { compiled_runtime_module := env.compile_runtime_module
                 config := s.config
                 host_result_buffer :=
                   env.allocate memory_pool (8 * env.taichi_result_buffer_entries) 8
                 mem_pool := memory_pool.addr
                 profiler := profiler }] := by
  have h8 : (sizeof_uint64 * env.taichi_result_buffer_entries) % 2 ^ 64
      = 8 * env.taichi_result_buffer_entries := by
    rw [Nat.mod_eq_of_lt hsize]
    rfl
  simp only [materialize_runtime, materialize_runtime_with, hfresh, h8, MemoryPool.allocate]
  simp

/-- Claim C9 on a freshly constructed session: 32 slots of 8 bytes make a
request of 256 bytes. -/
theorem materialize_runtime_fresh_witness :
    (materialize_runtime sampleEnv (MetalProgramImpl sampleConfig) samplePool 5 nullptr).result
        = .ok ()
      ∧ (materialize_runtime sampleEnv (MetalProgramImpl sampleConfig) samplePool 5
            nullptr).memory_pool.served = [(256, 8)]
      ∧ (materialize_runtime sampleEnv (MetalProgramImpl sampleConfig) samplePool 5
            nullptr).result_buffer = 4160 :=
  ⟨(materialize_runtime_fresh sampleEnv (MetalProgramImpl sampleConfig) samplePool 5 rfl
      (by decide)).1,
    (materialize_runtime_fresh sampleEnv (MetalProgramImpl sampleConfig) samplePool 5 rfl
      (by decide)).2.2.1,
    (materialize_runtime_fresh sampleEnv (MetalProgramImpl sampleConfig) samplePool 5 rfl
      (by decide)).2.1⟩

/-- With a kernel manager present, `materialize_runtime` raises an assertion
error before doing anything. -/
theorem materialize_runtime_with_kernel_mgr (env : Env) (t : Session)
    (memory_pool : MemoryPool) (profiler result_buffer : Nat) (mgr : KernelManager)
    (hmgr : t.metal_kernel_mgr_ = some mgr) :
    (∃ msg, (materialize_runtime env t memory_pool profiler result_buffer).result
        = .error (.assertion msg))
      ∧ (materialize_runtime env t memory_pool profiler result_buffer).trace = []
      ∧ (materialize_runtime env t memory_pool profiler result_buffer).state = t
      ∧ (materialize_runtime env t memory_pool profiler result_buffer).memory_pool = memory_pool
      ∧ (materialize_runtime env t memory_pool profiler result_buffer).result_buffer
          = result_buffer := by
  unfold materialize_runtime materialize_runtime_with
  split
  · exact ⟨⟨_, rfl⟩, rfl, rfl, rfl, rfl⟩
  · split
    · exact ⟨⟨_, rfl⟩, rfl, rfl, rfl, rfl⟩
    · rename_i h
      rw [hmgr] at h
      exact absurd h (by simp)

/-- With a kernel manager present and a null slot, `materialize_runtime` raises
the assertion on the kernel manager. -/
theorem materialize_runtime_null_slot_with_kernel_mgr (env : Env) (t : Session)
    (memory_pool : MemoryPool) (profiler : Nat) (mgr : KernelManager)
    (hmgr : t.metal_kernel_mgr_ = some mgr) :
    (materialize_runtime env t memory_pool profiler nullptr).result
      = .error (.assertion "metal_kernel_mgr_ == nullptr") := by
  simp [materialize_runtime, materialize_runtime_with, hmgr]

/-- Claim C5. Once `materialize_runtime` has completed, then after any further
calls every other `materialize_runtime` raises an assertion error, whatever
pool, profiler and slot it is given; with a null slot it is the assertion on
the kernel manager. The failing call makes no outside call, so it neither
allocates nor constructs a kernel manager, and it leaves the session, the pool
and the slot as they were. -/
theorem materialize_runtime_twice_fails (env : Env) (s : Session)
    (memory_pool : MemoryPool) (profiler result_buffer : Nat) (ops : List Op)
    (memory_pool2 : MemoryPool) (profiler2 result_buffer2 : Nat)
    (hfirst : (materialize_runtime env s memory_pool profiler result_buffer).result = .ok ()) :
    (∃ msg,
        (materialize_runtime env
            (run env (materialize_runtime env s memory_pool profiler result_buffer).state ops)
            memory_pool2 profiler2 result_buffer2).result = .error (.assertion msg))
      ∧ (materialize_runtime env
            (run env (materialize_runtime env s memory_pool profiler result_buffer).state ops)
            memory_pool2 profiler2 nullptr).result
          = .error (.assertion "metal_kernel_mgr_ == nullptr")
      ∧ (materialize_runtime env
            (run env (materialize_runtime env s memory_pool profiler result_buffer).state ops)
            memory_pool2 profiler2 result_buffer2).trace = []
      ∧ (materialize_runtime env
            (run env (materialize_runtime env s memory_pool profiler result_buffer).state ops)
            memory_pool2 profiler2 result_buffer2).state
          = run env (materialize_runtime env s memory_pool profiler result_buffer).state ops
      ∧ (materialize_runtime env
            (run env (materialize_runtime env s memory_pool profiler result_buffer).state ops)
            memory_pool2 profiler2 result_buffer2).memory_pool = memory_pool2
      ∧ (materialize_runtime env
            (run env (materialize_runtime env s memory_pool profiler result_buffer).state ops)
            memory_pool2 profiler2 result_buffer2).result_buffer = result_buffer2 := by
  have hmgr1 : (materialize_runtime env s memory_pool profiler result_buffer).state.metal_kernel_mgr_.isSome
      = true := by
    rcases materialize_runtime_state env s memory_pool profiler result_buffer
      with ⟨hno, _⟩ | ⟨_, _, mgr, h⟩
    · rw [hfirst] at hno
      exact absurd hno (by decide)
    · rw [h]
      rfl
  have hmgr2 := (run_keeps env _ ops).2.2.1 hmgr1
  obtain ⟨mgr, hmgr⟩ := Option.isSome_iff_exists.mp hmgr2
  have h := materialize_runtime_with_kernel_mgr env _ memory_pool2 profiler2 result_buffer2
    mgr hmgr
  exact ⟨h.1, materialize_runtime_null_slot_with_kernel_mgr env _ memory_pool2 profiler2 mgr hmgr,
    h.2⟩

/-- Claim C5 on a freshly constructed session: the second call, with a fresh
pool and a null slot, after the first call, a tree and a cache manager. -/
theorem materialize_runtime_twice_fails_witness :
    (materialize_runtime sampleEnv (MetalProgramImpl sampleConfig) samplePool 0 nullptr).result
        = .ok ()
      ∧ (materialize_runtime sampleEnv
            (run sampleEnv
              (materialize_runtime sampleEnv (MetalProgramImpl sampleConfig) samplePool 0
                nullptr).state
              [.materialize_snode_tree denseHeap sampleTree 0, .get_cache_manager])
            samplePool 0 nullptr).result
          = .error (.assertion "metal_kernel_mgr_ == nullptr") :=
  ⟨rfl,
    (materialize_runtime_twice_fails sampleEnv (MetalProgramImpl sampleConfig) samplePool 0
      nullptr [.materialize_snode_tree denseHeap sampleTree 0, .get_cache_manager]
      samplePool 0 nullptr rfl).2.1⟩

/-! ## Cache manager and kernel compilation -/

/-- Claim C6. On a session whose runtime has been materialized, two calls of
`get_cache_manager` in a row return the same cache manager, the one the session
stores; the second call makes no outside call, so it constructs nothing and
does not resolve the cache path again, and it leaves the session exactly as the
first call left it. -/
theorem get_cache_manager_idempotent (env : Env) (s : Session) (hmat : Materialized s) :
    (∃ mgr, (get_cache_manager env s).result = .ok mgr
        ∧ (get_cache_manager env (get_cache_manager env s).state).result = .ok mgr
        ∧ (get_cache_manager env s).state.cache_manager_ = some mgr)
      ∧ (get_cache_manager env (get_cache_manager env s).state).trace = []
      ∧ (get_cache_manager env (get_cache_manager env s).state).state
          = (get_cache_manager env s).state := by
  obtain ⟨hmod, _⟩ := hmat
  obtain ⟨module, hmodule⟩ := Option.isSome_iff_exists.mp hmod
  cases hc : s.cache_manager_ with
  | some mgr =>
    have h1 : get_cache_manager env s = { result := .ok mgr, state := s, trace := [] } := by
      simp [get_cache_manager, hc]
    rw [h1]
    dsimp only
    rw [h1]
    exact ⟨⟨mgr, rfl, rfl, hc⟩, rfl, rfl⟩
  | none =>
    simp [get_cache_manager, hc, hmodule]

/-- Claim C6 on the materialized sample session, where the first call builds
the cache manager. -/
theorem get_cache_manager_idempotent_witness :
    Materialized materializedSession
      ∧ (get_cache_manager sampleEnv materializedSession).trace
          = [.get_cache_path_by_arch "cache",
             .make_cache_manager
               { mode := .MemAndDiskCache
                 cache_path := "cache/metal"
                 compiled_runtime_module_ := .compiled_runtime_module_
                 compiled_snode_trees_ := .compiled_snode_trees_ }]
      ∧ (get_cache_manager sampleEnv
            (get_cache_manager sampleEnv materializedSession).state).trace = []
      ∧ (get_cache_manager sampleEnv
            (get_cache_manager sampleEnv materializedSession).state).state
          = (get_cache_manager sampleEnv materializedSession).state :=
  ⟨⟨rfl, rfl⟩, rfl,
    (get_cache_manager_idempotent sampleEnv materializedSession ⟨rfl, rfl⟩).2.1,
    (get_cache_manager_idempotent sampleEnv materializedSession ⟨rfl, rfl⟩).2.2⟩

/-- Claim C7 fails as stated. On a freshly constructed session, a
`materialize_runtime` in which the constructor of the kernel manager raises has
not completed, and it leaves the runtime module stored and no kernel manager.
On that session `compile` passes the assertion of `get_cache_manager`, builds
the cache manager, calls `load_or_compile` and returns. -/
theorem compile_after_raising_materialize_runtime :
    halfMaterializedSession
        = run sampleEnv (MetalProgramImpl sampleConfig)
            [.materialize_runtime samplePool 0 nullptr (some (.ti_error "no Metal device"))]
      ∧ materialize_completed sampleEnv (MetalProgramImpl sampleConfig)
          [.materialize_runtime samplePool 0 nullptr (some (.ti_error "no Metal device"))]
          = false
      ∧ (materialize_runtime_with (some (.ti_error "no Metal device")) sampleEnv
            (MetalProgramImpl sampleConfig) samplePool 0 nullptr).result
          = .error (.ti_error "no Metal device")
      ∧ halfMaterializedSession.metal_kernel_mgr_ = none
      ∧ halfMaterializedSession.compiled_runtime_module_ = some { token := 7 }
      ∧ (compile sampleEnv halfMaterializedSession 3).result = .ok 3
      ∧ Event.load_or_compile 3 ∈ (compile sampleEnv halfMaterializedSession 3).trace :=
  ⟨rfl, rfl, rfl, rfl, rfl, rfl, by decide⟩

/-- Claim C7 as amended. Take any sequence of calls on a freshly constructed
session in which no `materialize_runtime` has got as far as storing the runtime
module; then none has completed. The session holds neither runtime module nor
cache manager, and `compile` raises the assertion error of `get_cache_manager`
for every kernel, makes no outside call, so in particular never reaches
`load_or_compile`, and leaves the session as it was. -/
theorem compile_before_runtime_module_stored_fails (env : Env) (config_ : CompileConfig)
    (ops : List Op) (kernel : Nat)
    (h : materialize_stored_module env (MetalProgramImpl config_) ops = false) :
    materialize_completed env (MetalProgramImpl config_) ops = false
      ∧ (run env (MetalProgramImpl config_) ops).compiled_runtime_module_ = none
      ∧ (run env (MetalProgramImpl config_) ops).cache_manager_ = none
      ∧ (compile env (run env (MetalProgramImpl config_) ops) kernel).result
          = .error (.assertion "compiled_runtime_module_.has_value()")
      ∧ (compile env (run env (MetalProgramImpl config_) ops) kernel).trace = []
      ∧ (∀ k, Event.load_or_compile k
          ∉ (compile env (run env (MetalProgramImpl config_) ops) kernel).trace)
      ∧ (compile env (run env (MetalProgramImpl config_) ops) kernel).state
          = run env (MetalProgramImpl config_) ops := by
  obtain ⟨hmod, hcache⟩ := run_unmaterialized env (MetalProgramImpl config_) ops rfl rfl h
  obtain ⟨hr, hs, ht⟩ :=
    get_cache_manager_unmaterialized env (run env (MetalProgramImpl config_) ops) hmod hcache
  have hcomp : compile env (run env (MetalProgramImpl config_) ops) kernel
      = { result := .error (.assertion "compiled_runtime_module_.has_value()")
          state := run env (MetalProgramImpl config_) ops
          trace := [] } := by
    unfold compile
    dsimp only
    rw [hr, hs, ht]
  rw [hcomp]
  exact ⟨completed_false_of_stored_false env _ ops h, hmod, hcache, rfl, rfl,
    fun k hk => absurd hk (List.not_mem_nil _), rfl⟩

/-- Claim C7 as amended, on a session that compiled a tree, called
`materialize_runtime` with a slot that was not null, so that it failed its
first assertion, and called `compile` once already. -/
theorem compile_before_runtime_module_stored_fails_witness :
    materialize_stored_module sampleEnv (MetalProgramImpl sampleConfig)
        [.compile_snode_tree_types denseHeap sampleTree,
         .materialize_runtime samplePool 0 64 none,
         .compile 1] = false
      ∧ (compile sampleEnv
            (run sampleEnv (MetalProgramImpl sampleConfig)
              [.compile_snode_tree_types denseHeap sampleTree,
               .materialize_runtime samplePool 0 64 none,
               .compile 1])
            3).result
          = .error (.assertion "compiled_runtime_module_.has_value()") :=
  ⟨by decide,
    (compile_before_runtime_module_stored_fails sampleEnv sampleConfig
      [.compile_snode_tree_types denseHeap sampleTree,
       .materialize_runtime samplePool 0 64 none,
       .compile 1] 3 (by decide)).2.2.2.1⟩

end taichi.lang
